import Mathlib

/-!
Verification of the tyvt request-governing core against its source.

Shallow embedding of:
* the Governor (`RateLimiter` from `internal/limiter`, the variant that
  defines `checkQuota`, `GetQuotaStatus` and a `Reset` clearing `keyQuotas`);
* the Rotator (`KeyRotator` from `internal/rotator/key_rotator.go`);
* the Orchestrator (`Scanner.Run`: the sequential loop of `scanner.go`
  combined with the failure-threshold epilogue of the refactored
  `Scanner.Run` recorded in the repository's improvement notes).

Modelling conventions, stated once:
* Go `time.Time` becomes `Time`: `ns` is the instant in nanoseconds since the
  Go zero time, `month`/`year` its calendar fields (the code reads instants
  only through `Sub`/`Truncate` and calendar fields only through
  `Month()`/`Year()`).  `time.Time{}.IsZero()` is modelled by `Option Time`
  with `none` for the zero value.  The several `time.Now()` calls made inside
  one mutex-protected critical section are nanoseconds apart and are modelled
  as a single instant; the instants observed before and after the pacing
  suspension are distinct parameters `t0`, `t1`.
* The cancellation context becomes a `Bool`: whether `ctx.Done()` fires
  before a pending `time.After` timer does.
* Execution is single-caller (the Orchestrator calls `Wait` strictly
  sequentially, spec section 5), so mutex-protected sections are modelled as
  atomic steps; the only lock phenomenon visible to a single caller is
  self-deadlock, modelled explicitly for the Rotator where it occurs.
* Go `close` of an already-closed channel panics; a Go operation that can
  panic or block forever returns `Option`, with `none` for the diverging run.
-/

namespace Tyvt

/-- A Go `time.Time` instant: nanoseconds since the zero time plus the
calendar month (1..12) and year the code observes via `Month()`/`Year()`. -/
structure Time where
  ns : Nat
  month : Nat
  year : Int
deriving DecidableEq

/-- `24 * time.Hour` in nanoseconds. -/
def dayNs : Nat := 86400000000000

/-- Go `a.Sub(b)`: a signed duration in nanoseconds. -/
def Time.sub (a b : Time) : Int := (a.ns : Int) - (b.ns : Int)

/-- Go `t.Truncate(24 * time.Hour)`: round down to a multiple of one day
since the zero time.  The result is the start of the same UTC day, so its
calendar fields are unchanged. -/
def truncateDay (t : Time) : Time :=
  { ns := t.ns - t.ns % dayNs, month := t.month, year := t.year }

/-- Go `time.Date(year, month, 1, 0, 0, 0, 0, time.UTC)`.  The code only
ever reads the `Month()` and `Year()` of this value (never its instant), so
the unobserved `ns` field is set to 0. -/
def dateFirstOfMonth (year : Int) (month : Nat) : Time :=
  { ns := 0, month := month, year := year }

/-- `KeyQuota` from the limiter source. -/
structure KeyQuota where
  DailyCount : Nat
  MonthlyCount : Nat
  LastReset : Time
  MonthReset : Time
deriving DecidableEq

/-- `DailyLimit = 500`. -/
def DailyLimit : Nat := 500

/-- `MonthlyLimit = 15500`. -/
def MonthlyLimit : Nat := 15500

/-- The Go map `map[string]*KeyQuota`, as an association list. -/
def QuotaMap := List (String × KeyQuota)
deriving instance DecidableEq for QuotaMap

/-- Go map lookup `m[k]` (the `value, ok` form). -/
def lookupQuota : QuotaMap → String → Option KeyQuota
  | [], _ => none
  | (k, q) :: rest, key => if k = key then some q else lookupQuota rest key

/-- Go map store `m[k] = v`: replace the binding if present, else add it. -/
def insertQuota : QuotaMap → String → KeyQuota → QuotaMap
  | [], key, q => [(key, q)]
  | (k, q0) :: rest, key, q =>
      if k = key then (k, q) :: rest else (k, q0) :: insertQuota rest key q

/-- The `RateLimiter` struct (the variant defining `checkQuota`):
`lastRequest time.Time` (zero value as `none`), `minInterval time.Duration`,
`keyQuotas map[string]*KeyQuota`.  The mutex is the atomicity of each
operation. -/
structure RateLimiter where
  lastRequest : Option Time
  minInterval : Int
  keyQuotas : QuotaMap
deriving DecidableEq

/-- `New(minInterval)`. -/
def New (minInterval : Int) : RateLimiter :=
  { lastRequest := none, minInterval := minInterval, keyQuotas := [] }

/-- The fresh `KeyQuota` built on first use of a key: zero counts,
`LastReset: time.Now().Truncate(24*time.Hour)`,
`MonthReset: time.Date(now.Year(), now.Month(), 1, 0, 0, 0, 0, time.UTC)`. -/
def freshQuota (now : Time) : KeyQuota :=
  { DailyCount := 0, MonthlyCount := 0,
    LastReset := truncateDay now,
    MonthReset := dateFirstOfMonth now.year now.month }

/-- The error scopes of `checkQuota`. -/
inductive QuotaScope where
  | daily
  | monthly
deriving DecidableEq

/-- The first half of `checkQuota(apiKey)` of the limiter source, with `now`
the instant of the critical section: locate or lazily create the key's
quota, then roll the daily window when `now.Sub(quota.LastReset) >=
24*time.Hour` and the monthly window when the calendar month or year
differs from `MonthReset`'s. -/
def rolledQuota (rl : RateLimiter) (apiKey : String) (now : Time) : KeyQuota :=
  let quota0 := (lookupQuota rl.keyQuotas apiKey).getD (freshQuota now)
  let quota1 :=
    if (dayNs : Int) ≤ now.sub quota0.LastReset then
      { quota0 with DailyCount := 0, LastReset := truncateDay now }
    else quota0
  if now.month ≠ quota1.MonthReset.month ∨ now.year ≠ quota1.MonthReset.year then
    { quota1 with MonthlyCount := 0,
                  MonthReset := dateFirstOfMonth now.year now.month }
  else quota1

/-- The second half of `checkQuota(apiKey)`: store the rolled quota back
under the key (the source mutates the map entry through a pointer; storing
the final entry once yields the same map), then reject on `DailyCount >=
DailyLimit` first and `MonthlyCount >= MonthlyLimit` second, touching no
counter. -/
def checkQuota (rl : RateLimiter) (apiKey : String) (now : Time) :
    Option QuotaScope × RateLimiter :=
  let quota2 := rolledQuota rl apiKey now
  let rl1 : RateLimiter := { rl with keyQuotas := insertQuota rl.keyQuotas apiKey quota2 }
  if DailyLimit ≤ quota2.DailyCount then (some QuotaScope.daily, rl1)
  else if MonthlyLimit ≤ quota2.MonthlyCount then (some QuotaScope.monthly, rl1)
  else (none, rl1)

/-- The pacing-delay computation inside `Wait`: `waitTime` stays 0 when
`lastRequest` is the zero time or at least `minInterval` has elapsed,
otherwise it is the remainder of the interval. -/
def pacingDelay (rl : RateLimiter) (now : Time) : Int :=
  match rl.lastRequest with
  | none => 0
  | some last =>
      if now.sub last < rl.minInterval then rl.minInterval - now.sub last else 0

/-- Result of `Wait`. -/
inductive WaitResult where
  | ok
  | quotaExceeded (scope : QuotaScope)
  | cancelled
deriving DecidableEq

/-- `Wait(ctx, apiKey)` of the limiter source.  `t0` is the instant observed
while the lock is first held, `t1` the instant observed at the commit after
the suspension; `ctxDone` says whether `ctx.Done()` fires before a pending
timer.  On a quota error the call returns before computing any delay; the
`select` only runs when `waitTime > 0`; the commit sets `lastRequest`,
re-reads the key's map entry and increments both of its counters.  The final
`none` arm is unreachable because `checkQuota` always stores the key
(`lookupQuota_checkQuota`); Go dereferences the entry unconditionally there. -/
def Wait (rl : RateLimiter) (apiKey : String) (ctxDone : Bool) (t0 t1 : Time) :
    WaitResult × RateLimiter :=
  match checkQuota rl apiKey t0 with
  | (some scope, rl1) => (WaitResult.quotaExceeded scope, rl1)
  | (none, rl1) =>
      let waitTime := pacingDelay rl1 t0
      if 0 < waitTime ∧ ctxDone = true then (WaitResult.cancelled, rl1)
      else
        match lookupQuota rl1.keyQuotas apiKey with
        | some quota =>
            (WaitResult.ok,
              { rl1 with
                  lastRequest := some t1,
                  keyQuotas := insertQuota rl1.keyQuotas apiKey
                    { quota with DailyCount := quota.DailyCount + 1,
                                 MonthlyCount := quota.MonthlyCount + 1 } })
        | none => (WaitResult.ok, { rl1 with lastRequest := some t1 })

/-- `GetQuotaStatus(apiKey)`: `(0, 0)` for an unknown key, else the pair of
counters. -/
def GetQuotaStatus (rl : RateLimiter) (apiKey : String) : Nat × Nat :=
  match lookupQuota rl.keyQuotas apiKey with
  | none => (0, 0)
  | some quota => (quota.DailyCount, quota.MonthlyCount)

/-- `Reset()` of the same variant: `lastRequest = time.Time{}` and a fresh
empty `keyQuotas` map. -/
def Reset (rl : RateLimiter) : RateLimiter :=
  { rl with lastRequest := none, keyQuotas := [] }

/-- No daily or monthly window boundary is crossed by a call at instant
`now` for `apiKey`: for an existing entry neither roll in `checkQuota`
fires; a freshly created entry starts its windows at `now` and never rolls
(proved, not assumed, in `checkQuota_noBoundary`). -/
def noBoundaryCrossed (rl : RateLimiter) (apiKey : String) (now : Time) : Bool :=
  match lookupQuota rl.keyQuotas apiKey with
  | none => true
  | some q =>
      decide (now.sub q.LastReset < (dayNs : Int)) &&
      decide (q.MonthReset.month = now.month) &&
      decide (q.MonthReset.year = now.year)

/-! ## Orchestrator (`Scanner.Run`)

The sequential loop of `scanner.go` with the failure-threshold epilogue of
the refactored `Scanner.Run` recorded in the repository's improvement notes
(both are the repository's own code; the compiled `scanner.go` body logs the
error count and returns nil, the refactored body additionally returns an
aggregate error when more than half the items failed).  The Query
collaborator `QueryDomain(ctx, domain)` is an oracle indexed by loop
position and domain; per Go, an error outcome is counted as a failure, a
nil result with nil error is skipped, and a non-nil result is appended in
input order. -/

/-- The outcome of a whole run: `cancelled` is `return ctx.Err()` (nothing
else is part of the returned outcome), `thresholdFailed` the aggregate
error carrying the failure count and total, `completed` the nil return with
the ordered successful results handed to the output collaborator. -/
inductive RunResult (α : Type) where
  | cancelled
  | thresholdFailed (failures total : Nat)
  | completed (results : List α) (failures : Nat)
deriving DecidableEq

/-- The `for i, domain := range domains` loop of `Scanner.Run`, carrying the
accumulated `results` and failure count, followed by the epilogue
`if len(errors) > totalDomains/2 { return error }`. -/
def runLoop (total : Nat) (ctxDone : Nat → Bool)
    (query : Nat → String → Except String (Option α)) :
    List String → Nat → List α → Nat → RunResult α
  | [], _, results, failures =>
      if total / 2 < failures then RunResult.thresholdFailed failures total
      else RunResult.completed results failures
  | d :: rest, i, results, failures =>
      if ctxDone i then RunResult.cancelled
      else
        match query i d with
        | Except.error _ => runLoop total ctxDone query rest (i + 1) results (failures + 1)
        | Except.ok none => runLoop total ctxDone query rest (i + 1) results failures
        | Except.ok (some r) => runLoop total ctxDone query rest (i + 1) (results ++ [r]) failures

/-- `Scanner.Run(ctx)` over the configured domain list.  `ctxDone i` is the
state of `ctx.Done()` at the cancellation check before item `i`. -/
def ScannerRun (domains : List String) (ctxDone : Nat → Bool)
    (query : Nat → String → Except String (Option α)) : RunResult α :=
  runLoop domains.length ctxDone query domains 0 [] 0

/-- Number of loop iterations whose query errors (the per-item failures). -/
def countFailures (query : Nat → String → Except String (Option α)) :
    List String → Nat → Nat
  | [], _ => 0
  | d :: rest, i =>
      (match query i d with | Except.error _ => 1 | _ => 0) +
      countFailures query rest (i + 1)

/-- The successful results in input order (non-nil results of non-erroring
queries). -/
def collectResults (query : Nat → String → Except String (Option α)) :
    List String → Nat → List α
  | [], _ => []
  | d :: rest, i =>
      (match query i d with | Except.ok (some r) => [r] | _ => []) ++
      collectResults query rest (i + 1)

/-- The loop positions that reach the `QueryDomain` call: the loop invokes
the Query collaborator exactly once per iteration until the cancellation
check fires, independently of the query outcomes. -/
def queriedIndices (ctxDone : Nat → Bool) : List String → Nat → List Nat
  | [], _ => []
  | _ :: rest, i =>
      if ctxDone i then [] else i :: queriedIndices ctxDone rest (i + 1)

/-! ## Rotator (`KeyRotator`, `internal/rotator/key_rotator.go`)

The struct without its mutex and channel: `started` is the flag set by the
`autoRotate` goroutine and cleared by `Stop`, `stopClosed` records whether
`close(stopChan)` has happened. -/

/-- The lock context a method body runs in: Go `sync.RWMutex` read-locking
blocks forever when the calling goroutine already holds the write lock. -/
inductive LockCtx where
  | unlocked
  | wlocked
deriving DecidableEq

/-- `KeyRotator` struct. -/
structure KeyRotator where
  keys : List String
  currentIndex : Nat
  rotationInterval : Int
  lastRotation : Time
  started : Bool
  stopClosed : Bool
deriving DecidableEq

/-- `NewKeyRotator(keys, rotationInterval)`: index 0, `lastRotation: now`,
fresh (open) stop channel; the `autoRotate` goroutine it may spawn sets
`started` when it begins running (`autoRotateStart`). -/
def NewKeyRotator (keys : List String) (rotationInterval : Int) (now : Time) :
    KeyRotator :=
  { keys := keys, currentIndex := 0, rotationInterval := rotationInterval,
    lastRotation := now, started := false, stopClosed := false }

/-- The body of `CurrentKey` once its read lock is held: empty sentinel for
an empty list, else `kr.keys[kr.currentIndex]` (in range by the index
invariant). -/
def currentKeyBody (kr : KeyRotator) : String :=
  if kr.keys.length = 0 then "" else kr.keys.getD kr.currentIndex ""

/-- `CurrentKey()` called from a goroutine in lock context `ctx`: it begins
with `kr.mu.RLock()`, which never returns (`none`) when the caller already
holds the write lock. -/
def CurrentKeyFrom (ctx : LockCtx) (kr : KeyRotator) : Option String :=
  match ctx with
  | LockCtx.wlocked => none
  | LockCtx.unlocked => some (currentKeyBody kr)

/-- `CurrentKey()` from an unlocked caller. -/
def CurrentKey (kr : KeyRotator) : Option String :=
  CurrentKeyFrom LockCtx.unlocked kr

/-- `RotateKey()`: the body runs holding the write lock.  With at most one
key it returns `kr.CurrentKey()` — whose `RLock` self-deadlocks under the
held write lock — otherwise it advances the index modulo the length, stamps
`lastRotation` and returns the new key. -/
def RotateKey (kr : KeyRotator) (now : Time) : Option (String × KeyRotator) :=
  if kr.keys.length ≤ 1 then
    (CurrentKeyFrom LockCtx.wlocked kr).map (fun k => (k, kr))
  else
    let idx := (kr.currentIndex + 1) % kr.keys.length
    some (kr.keys.getD idx "",
      { kr with currentIndex := idx, lastRotation := now })

/-- `Stop()`: under the lock, close the stop channel only when `started`;
closing an already-closed channel panics (`none`). -/
def Stop (kr : KeyRotator) : Option KeyRotator :=
  if kr.started then
    if kr.stopClosed then none
    else some { kr with stopClosed := true, started := false }
  else some kr

/-- The first statement of the `autoRotate` goroutine: `kr.started = true`
under the lock. -/
def autoRotateStart (kr : KeyRotator) : KeyRotator :=
  { kr with started := true }

/-- Rotator states reachable by the program.  `start` carries the facts
holding at the unique point where the background goroutine begins: it is
spawned exactly once by the constructor, only it ever sets `started`, and
`close(stopChan)` requires `started`, so at that point `started` and
`stopClosed` are both still false.  `rotate` covers both manual rotation and
the goroutine's ticker arm, `stop` a completed (non-panicking) `Stop`. -/
inductive Reachable : KeyRotator → Prop
  | init (keys : List String) (ri : Int) (t : Time) :
      Reachable (NewKeyRotator keys ri t)
  | start {kr : KeyRotator} : Reachable kr → kr.started = false →
      kr.stopClosed = false → Reachable (autoRotateStart kr)
  | rotate {kr : KeyRotator} {now : Time} {k : String} {kr' : KeyRotator} :
      Reachable kr → RotateKey kr now = some (k, kr') → Reachable kr'
  | stop {kr kr' : KeyRotator} : Reachable kr → Stop kr = some kr' →
      Reachable kr'

/-! ## Call sequences against the Governor -/

/-- One `Wait` call's inputs: the cancellation-signal state and the instants
observed before and after the suspension. -/
structure WaitCall where
  ctxDone : Bool
  t0 : Time
  t1 : Time
deriving DecidableEq

/-- Execute a sequence of `Wait` calls for one key, threading the state. -/
def runWaits (key : String) : RateLimiter → List WaitCall → RateLimiter
  | rl, [] => rl
  | rl, c :: cs => runWaits key (Wait rl key c.ctxDone c.t0 c.t1).2 cs

/-- Every call of the sequence is admitted (returns ok) and crosses no
daily or monthly window boundary. -/
def admittedNoBoundaryRun (key : String) : RateLimiter → List WaitCall → Bool
  | _, [] => true
  | rl, c :: cs =>
      noBoundaryCrossed rl key c.t0 &&
      decide ((Wait rl key c.ctxDone c.t0 c.t1).1 = WaitResult.ok) &&
      admittedNoBoundaryRun key (Wait rl key c.ctxDone c.t0 c.t1).2 cs

/-! ## Concrete instances used by witnesses and counterexamples -/

/-- Two admitted calls, 100ns minimum interval apart, within one day and
month. -/
def c1Calls : List WaitCall :=
  [{ ctxDone := false, t0 := ⟨0, 1, 2025⟩, t1 := ⟨50, 1, 2025⟩ },
   { ctxDone := false, t0 := ⟨250, 1, 2025⟩, t1 := ⟨300, 1, 2025⟩ }]

/-- A limiter whose previous admitted call committed at instant 0. -/
def c2State : RateLimiter :=
  { lastRequest := some ⟨0, 1, 2025⟩, minInterval := 100, keyQuotas := [] }

/-- A key already at the daily ceiling, inside its current windows. -/
def c3State : RateLimiter :=
  { lastRequest := none, minInterval := 100,
    keyQuotas := [("k", { DailyCount := 500, MonthlyCount := 700,
                          LastReset := ⟨0, 1, 2025⟩, MonthReset := ⟨0, 1, 2025⟩ })] }

/-- A key with live counters whose daily window is about to expire, and a
very recent previous request so a pacing delay is pending. -/
def c4State : RateLimiter :=
  { lastRequest := some ⟨86400000000000, 1, 2025⟩, minInterval := 100,
    keyQuotas := [("k", { DailyCount := 3, MonthlyCount := 7,
                          LastReset := ⟨0, 1, 2025⟩, MonthReset := ⟨0, 1, 2025⟩ })] }

/-- A key with live counters inside its windows and a recent previous
request. -/
def c4bState : RateLimiter :=
  { lastRequest := some ⟨200, 1, 2025⟩, minInterval := 100,
    keyQuotas := [("k", { DailyCount := 3, MonthlyCount := 7,
                          LastReset := ⟨0, 1, 2025⟩, MonthReset := ⟨0, 1, 2025⟩ })] }

/-- A key at the daily ceiling while the pacing marker is unset. -/
def c10State : RateLimiter :=
  { lastRequest := none, minInterval := 100,
    keyQuotas := [("k", { DailyCount := 500, MonthlyCount := 600,
                          LastReset := ⟨0, 1, 2025⟩, MonthReset := ⟨0, 1, 2025⟩ })] }

/-- A key inside its windows, below both ceilings, pacing marker unset. -/
def c10bState : RateLimiter :=
  { lastRequest := none, minInterval := 100,
    keyQuotas := [("k", { DailyCount := 4, MonthlyCount := 9,
                          LastReset := ⟨0, 1, 2025⟩, MonthReset := ⟨0, 1, 2025⟩ })] }

/-- A ten-item batch. -/
def c5Domains : List String :=
  ["d1", "d2", "d3", "d4", "d5", "d6", "d7", "d8", "d9", "d10"]

/-- A query oracle failing on the first six items. -/
def c5Query (i : Nat) (_d : String) : Except String (Option Nat) :=
  if i < 6 then Except.error "boom" else Except.ok (some i)

/-- A query oracle failing on the first five items. -/
def c5bQuery (i : Nat) (_d : String) : Except String (Option Nat) :=
  if i < 5 then Except.error "boom" else Except.ok (some i)

/-- A cancellation signal that never fires. -/
def c5Done (_i : Nat) : Bool := false

/-- A five-item batch. -/
def c6Domains : List String := ["e1", "e2", "e3", "e4", "e5"]

/-- A cancellation signal raised before item 3 (index 2). -/
def c6Done (i : Nat) : Bool := decide (2 ≤ i)

/-- A query oracle that always succeeds. -/
def c6Query (i : Nat) (_d : String) : Except String (Option Nat) :=
  Except.ok (some i)

/-- A rotator whose background task has started. -/
def c8State : KeyRotator :=
  autoRotateStart (NewKeyRotator ["a", "b"] 90000000000 ⟨0, 1, 2025⟩)

/-! ## Governor lemmas -/

theorem lookupQuota_insert_self (m : QuotaMap) (key : String) (q : KeyQuota) :
    lookupQuota (insertQuota m key q) key = some q := by
  induction m with
  | nil => simp [insertQuota, lookupQuota]
  | cons kv rest ih =>
      obtain ⟨k, q0⟩ := kv
      by_cases hk : k = key <;> simp [insertQuota, lookupQuota, hk, ih]

/-- `checkQuota` only rewrites the quota map: it stores the rolled quota of
its key. -/
theorem checkQuota_snd (rl : RateLimiter) (key : String) (now : Time) :
    (checkQuota rl key now).2 =
      { rl with keyQuotas := insertQuota rl.keyQuotas key (rolledQuota rl key now) } := by
  simp only [checkQuota]
  split_ifs <;> rfl

theorem checkQuota_eq (rl : RateLimiter) (key : String) (now : Time) :
    ∃ q : KeyQuota,
      (checkQuota rl key now).2 =
        { rl with keyQuotas := insertQuota rl.keyQuotas key q } :=
  ⟨rolledQuota rl key now, checkQuota_snd rl key now⟩

theorem checkQuota_lastRequest (rl : RateLimiter) (key : String) (now : Time) :
    (checkQuota rl key now).2.lastRequest = rl.lastRequest := by
  obtain ⟨q, hq⟩ := checkQuota_eq rl key now
  rw [hq]

theorem checkQuota_minInterval (rl : RateLimiter) (key : String) (now : Time) :
    (checkQuota rl key now).2.minInterval = rl.minInterval := by
  obtain ⟨q, hq⟩ := checkQuota_eq rl key now
  rw [hq]

/-- `pacingDelay` reads only `lastRequest` and `minInterval`, so it is
unchanged by `checkQuota`. -/
theorem pacingDelay_checkQuota (rl : RateLimiter) (key : String) (now t : Time) :
    pacingDelay (checkQuota rl key now).2 t = pacingDelay rl t := by
  unfold pacingDelay
  rw [checkQuota_lastRequest, checkQuota_minInterval]

/-- `checkQuota` always stores an entry for the key it was called with. -/
theorem lookupQuota_checkQuota (rl : RateLimiter) (key : String) (now : Time) :
    ∃ q : KeyQuota, lookupQuota (checkQuota rl key now).2.keyQuotas key = some q := by
  obtain ⟨q, hq⟩ := checkQuota_eq rl key now
  exact ⟨q, by rw [hq]; exact lookupQuota_insert_self _ _ _⟩

theorem checkQuota_pair (rl : RateLimiter) (key : String) (now : Time) :
    checkQuota rl key now =
      (if DailyLimit ≤ (rolledQuota rl key now).DailyCount then some QuotaScope.daily
       else if MonthlyLimit ≤ (rolledQuota rl key now).MonthlyCount then some QuotaScope.monthly
       else none,
       { rl with keyQuotas := insertQuota rl.keyQuotas key (rolledQuota rl key now) }) := by
  simp only [checkQuota]
  split_ifs <;> rfl

theorem pacingDelay_keyQuotas (rl : RateLimiter) (m : QuotaMap) (t : Time) :
    pacingDelay { rl with keyQuotas := m } t = pacingDelay rl t := rfl

/-- Full characterization of one `Wait` call: roll and store the key's
quota, reject daily first and monthly second, cancel only when a positive
delay is pending and the signal fires, otherwise commit. -/
theorem Wait_eq (rl : RateLimiter) (key : String) (d : Bool) (t0 t1 : Time) :
    Wait rl key d t0 t1 =
      (let q := rolledQuota rl key t0
       let rl1 : RateLimiter := { rl with keyQuotas := insertQuota rl.keyQuotas key q }
       if DailyLimit ≤ q.DailyCount then (WaitResult.quotaExceeded QuotaScope.daily, rl1)
       else if MonthlyLimit ≤ q.MonthlyCount then (WaitResult.quotaExceeded QuotaScope.monthly, rl1)
       else if 0 < pacingDelay rl t0 ∧ d = true then (WaitResult.cancelled, rl1)
       else (WaitResult.ok,
         { rl1 with
             lastRequest := some t1,
             keyQuotas := insertQuota rl1.keyQuotas key
               { q with DailyCount := q.DailyCount + 1,
                        MonthlyCount := q.MonthlyCount + 1 } })) := by
  unfold Wait
  rw [checkQuota_pair rl key t0]
  by_cases hd : DailyLimit ≤ (rolledQuota rl key t0).DailyCount
  · simp [hd]
  · by_cases hm : MonthlyLimit ≤ (rolledQuota rl key t0).MonthlyCount
    · simp [hd, hm]
    · simp [hd, hm, lookupQuota_insert_self, pacingDelay_keyQuotas]

/-- When no boundary is crossed, the roll step leaves the stored (or fresh)
quota untouched. -/
theorem rolledQuota_noBoundary (rl : RateLimiter) (key : String) (now : Time)
    (h : noBoundaryCrossed rl key now = true) :
    rolledQuota rl key now = (lookupQuota rl.keyQuotas key).getD (freshQuota now) := by
  unfold noBoundaryCrossed at h
  unfold rolledQuota
  cases hl : lookupQuota rl.keyQuotas key with
  | none =>
      simp only [hl, Option.getD_none]
      have hday : ¬ ((dayNs : Int) ≤ now.sub (freshQuota now).LastReset) := by
        simp only [freshQuota, truncateDay, Time.sub, dayNs]
        omega
      rw [if_neg hday]
      simp [freshQuota, dateFirstOfMonth]
  | some q =>
      rw [hl] at h
      simp only [Bool.and_eq_true, decide_eq_true_eq] at h
      obtain ⟨⟨h1, h2⟩, h3⟩ := h
      simp only [hl, Option.getD_some]
      have hday : ¬ ((dayNs : Int) ≤ now.sub q.LastReset) := by omega
      rw [if_neg hday]
      have hmon : ¬ (now.month ≠ q.MonthReset.month ∨ now.year ≠ q.MonthReset.year) := by
        simp [h2, h3]
      rw [if_neg hmon]

/-- When no boundary is crossed, the rolled quota's counters are exactly the
`GetQuotaStatus` snapshot (for a fresh key both are zero). -/
theorem rolledQuota_counts (rl : RateLimiter) (key : String) (now : Time)
    (h : noBoundaryCrossed rl key now = true) :
    ((rolledQuota rl key now).DailyCount, (rolledQuota rl key now).MonthlyCount) =
      GetQuotaStatus rl key := by
  rw [rolledQuota_noBoundary rl key now h]
  unfold GetQuotaStatus
  cases hl : lookupQuota rl.keyQuotas key <;> simp [hl, freshQuota]

/-- An admitted boundary-free call increments exactly its key's two
counters. -/
theorem wait_ok_step (rl : RateLimiter) (key : String) (d : Bool) (t0 t1 : Time)
    (hnb : noBoundaryCrossed rl key t0 = true)
    (hok : (Wait rl key d t0 t1).1 = WaitResult.ok) :
    GetQuotaStatus (Wait rl key d t0 t1).2 key =
      ((GetQuotaStatus rl key).1 + 1, (GetQuotaStatus rl key).2 + 1) := by
  have hc := rolledQuota_counts rl key t0 hnb
  rw [Wait_eq] at hok ⊢
  by_cases hd : DailyLimit ≤ (rolledQuota rl key t0).DailyCount
  · simp [hd] at hok
  · by_cases hm : MonthlyLimit ≤ (rolledQuota rl key t0).MonthlyCount
    · simp [hd, hm] at hok
    · by_cases hp : 0 < pacingDelay rl t0 ∧ d = true
      · simp [hd, hm, hp] at hok
      · rw [← hc]
        simp [hd, hm, hp, GetQuotaStatus, lookupQuota_insert_self]

/-- Counter accounting over a whole admitted boundary-free call sequence. -/
theorem runWaits_counts (key : String) (cs : List WaitCall) :
    ∀ rl : RateLimiter, admittedNoBoundaryRun key rl cs = true →
      GetQuotaStatus (runWaits key rl cs) key =
        ((GetQuotaStatus rl key).1 + cs.length, (GetQuotaStatus rl key).2 + cs.length) := by
  induction cs with
  | nil => intro rl _; simp [runWaits]
  | cons c cs ih =>
      intro rl h
      simp only [admittedNoBoundaryRun, Bool.and_eq_true, decide_eq_true_eq] at h
      obtain ⟨⟨hnb, hok⟩, hrest⟩ := h
      have hstep := wait_ok_step rl key c.ctxDone c.t0 c.t1 hnb hok
      simp only [runWaits]
      rw [ih _ hrest, hstep]
      simp only [List.length_cons, Prod.mk.injEq]
      omega

/-- `Wait` can only return the cancellation error out of the `select`, which
runs only when a positive delay is pending; the result state is then the one
`checkQuota` left, whose pacing marker is the caller's. -/
theorem wait_cancelled_inv (rl : RateLimiter) (key : String) (d : Bool)
    (t0 t1 : Time) (hc : (Wait rl key d t0 t1).1 = WaitResult.cancelled) :
    d = true ∧ 0 < pacingDelay rl t0 ∧
    (Wait rl key d t0 t1).2.lastRequest = rl.lastRequest ∧
    (Wait rl key d t0 t1).2 =
      { rl with keyQuotas := insertQuota rl.keyQuotas key (rolledQuota rl key t0) } := by
  rw [Wait_eq] at hc ⊢
  by_cases hd : DailyLimit ≤ (rolledQuota rl key t0).DailyCount
  · simp [hd] at hc
  · by_cases hm : MonthlyLimit ≤ (rolledQuota rl key t0).MonthlyCount
    · simp [hd, hm] at hc
    · by_cases hp : 0 < pacingDelay rl t0 ∧ d = true
      · exact ⟨hp.2, hp.1, by simp [hd, hm, hp], by simp [hd, hm, hp]⟩
      · simp [hd, hm, hp] at hc

/-- After a boundary-free call, the quota map stores the key's old counters
(or fresh zeros), so the status snapshot is unchanged. -/
theorem getQuotaStatus_insert_rolled (rl : RateLimiter) (key : String) (t0 : Time)
    (hnb : noBoundaryCrossed rl key t0 = true) :
    GetQuotaStatus
      { rl with keyQuotas := insertQuota rl.keyQuotas key (rolledQuota rl key t0) } key =
      GetQuotaStatus rl key := by
  have hc := rolledQuota_counts rl key t0 hnb
  rw [← hc]
  simp [GetQuotaStatus, lookupQuota_insert_self]

/-- Claim C1: starting from a fresh Governor, `N` consecutive admitted
boundary-free `Wait` calls for a credential leave `GetQuotaStatus` at
`(N, N)`, and each single admitted boundary-free `Wait` increments both of
its credential's counters by exactly 1. -/
theorem C1_quota_counting :
    (∀ (m : Int) (key : String) (cs : List WaitCall),
        admittedNoBoundaryRun key (New m) cs = true →
        GetQuotaStatus (runWaits key (New m) cs) key = (cs.length, cs.length)) ∧
    (∀ (rl : RateLimiter) (key : String) (d : Bool) (t0 t1 : Time),
        noBoundaryCrossed rl key t0 = true →
        (Wait rl key d t0 t1).1 = WaitResult.ok →
        GetQuotaStatus (Wait rl key d t0 t1).2 key =
          ((GetQuotaStatus rl key).1 + 1, (GetQuotaStatus rl key).2 + 1)) := by
  constructor
  · intro m key cs h
    have hr := runWaits_counts key cs (New m) h
    simpa [New, GetQuotaStatus, lookupQuota] using hr
  · intro rl key d t0 t1 hnb hok
    exact wait_ok_step rl key d t0 t1 hnb hok

/-- Witness for C1: two admitted calls on a fresh Governor end at status
`(2, 2)`. -/
theorem C1_quota_counting_witness :
    admittedNoBoundaryRun "k" (New 100) c1Calls = true ∧
    GetQuotaStatus (runWaits "k" (New 100) c1Calls) "k" = (2, 2) :=
  ⟨by decide, C1_quota_counting.1 100 "k" c1Calls (by decide)⟩

/-- Claim C2: whatever credential each call uses, an admitted `Wait` whose
suspension really elapsed (`pacingDelay ≤ t1 - t0`, the contract of
`time.After`) commits at `t1` with `t1` at least `minInterval` after the
previous admitted call's commit timestamp `last`. -/
theorem C2_pacing_gap (rl : RateLimiter) (key : String) (d : Bool)
    (t0 t1 last : Time)
    (hlast : rl.lastRequest = some last)
    (hok : (Wait rl key d t0 t1).1 = WaitResult.ok)
    (hsleep : pacingDelay rl t0 ≤ t1.sub t0) :
    (Wait rl key d t0 t1).2.lastRequest = some t1 ∧
    rl.minInterval ≤ t1.sub last := by
  have hdel : pacingDelay rl t0 =
      (if t0.sub last < rl.minInterval then rl.minInterval - t0.sub last else 0) := by
    simp [pacingDelay, hlast]
  rw [Wait_eq] at hok ⊢
  by_cases hd : DailyLimit ≤ (rolledQuota rl key t0).DailyCount
  · simp [hd] at hok
  · by_cases hm : MonthlyLimit ≤ (rolledQuota rl key t0).MonthlyCount
    · simp [hd, hm] at hok
    · by_cases hp : 0 < pacingDelay rl t0 ∧ d = true
      · simp [hd, hm, hp] at hok
      · refine ⟨by simp [hd, hm, hp], ?_⟩
        rw [hdel] at hsleep
        by_cases hcmp : t0.sub last < rl.minInterval
        · rw [if_pos hcmp] at hsleep
          simp only [Time.sub] at hsleep hcmp ⊢
          omega
        · rw [if_neg hcmp] at hsleep
          simp only [Time.sub] at hsleep hcmp ⊢
          omega

/-- Witness for C2: previous commit at 0, check at 40, minimum interval
100: the call sleeps 60 and commits at 100, a gap of exactly 100. -/
theorem C2_pacing_gap_witness :
    (Wait c2State "k" false ⟨40, 1, 2025⟩ ⟨100, 1, 2025⟩).2.lastRequest =
      some ⟨100, 1, 2025⟩ ∧
    c2State.minInterval ≤ Time.sub ⟨100, 1, 2025⟩ ⟨0, 1, 2025⟩ :=
  C2_pacing_gap c2State "k" false ⟨40, 1, 2025⟩ ⟨100, 1, 2025⟩ ⟨0, 1, 2025⟩
    (by decide) (by decide) (by decide)

/-- Claim C3: a boundary-free `Wait` that reports `QuotaExceeded` leaves the
credential's counters and the pacing marker at their pre-call values; the
daily ceiling (500) is checked first, the monthly ceiling (15,500) second. -/
theorem C3_reject_preserves (rl : RateLimiter) (key : String) (d : Bool)
    (t0 t1 : Time) (scope : QuotaScope)
    (hnb : noBoundaryCrossed rl key t0 = true)
    (hrej : (Wait rl key d t0 t1).1 = WaitResult.quotaExceeded scope) :
    GetQuotaStatus (Wait rl key d t0 t1).2 key = GetQuotaStatus rl key ∧
    (Wait rl key d t0 t1).2.lastRequest = rl.lastRequest ∧
    (scope = QuotaScope.daily ↔ DailyLimit ≤ (GetQuotaStatus rl key).1) ∧
    (scope = QuotaScope.monthly →
      (GetQuotaStatus rl key).1 < DailyLimit ∧
      MonthlyLimit ≤ (GetQuotaStatus rl key).2) := by
  have hc := rolledQuota_counts rl key t0 hnb
  have hg := getQuotaStatus_insert_rolled rl key t0 hnb
  have hc1 : (rolledQuota rl key t0).DailyCount = (GetQuotaStatus rl key).1 := by
    rw [← hc]
  have hc2 : (rolledQuota rl key t0).MonthlyCount = (GetQuotaStatus rl key).2 := by
    rw [← hc]
  rw [Wait_eq] at hrej ⊢
  by_cases hd : DailyLimit ≤ (rolledQuota rl key t0).DailyCount
  · have hs : scope = QuotaScope.daily := by
      simp [hd] at hrej
      exact hrej.symm
    subst hs
    refine ⟨by simpa [hd] using hg, by simp [hd], ?_, ?_⟩
    · simp [← hc1, hd]
    · intro h; cases h
  · by_cases hm : MonthlyLimit ≤ (rolledQuota rl key t0).MonthlyCount
    · have hs : scope = QuotaScope.monthly := by
        simp [hd, hm] at hrej
        exact hrej.symm
      subst hs
      refine ⟨by simpa [hd, hm] using hg, by simp [hd, hm], ?_, ?_⟩
      · constructor
        · intro h; cases h
        · intro h
          rw [← hc1] at h
          exact absurd h hd
      · intro _
        rw [← hc1, ← hc2]
        exact ⟨Nat.lt_of_not_le hd, hm⟩
    · by_cases hp : 0 < pacingDelay rl t0 ∧ d = true
      · simp [hd, hm, hp] at hrej
      · simp [hd, hm, hp] at hrej

/-- Witness for C3: a key at daily count 500 is rejected with the daily
scope, counters and pacing marker untouched. -/
theorem C3_reject_preserves_witness :
    GetQuotaStatus (Wait c3State "k" false ⟨77, 1, 2025⟩ ⟨99, 1, 2025⟩).2 "k" =
      GetQuotaStatus c3State "k" ∧
    (Wait c3State "k" false ⟨77, 1, 2025⟩ ⟨99, 1, 2025⟩).2.lastRequest =
      c3State.lastRequest ∧
    (QuotaScope.daily = QuotaScope.daily ↔
      DailyLimit ≤ (GetQuotaStatus c3State "k").1) ∧
    (QuotaScope.daily = QuotaScope.monthly →
      (GetQuotaStatus c3State "k").1 < DailyLimit ∧
      MonthlyLimit ≤ (GetQuotaStatus c3State "k").2) :=
  C3_reject_preserves c3State "k" false ⟨77, 1, 2025⟩ ⟨99, 1, 2025⟩
    QuotaScope.daily (by decide) (by decide)

/-- Counterexample to C4 as stated: a call whose check instant crosses the
key's daily boundary rolls the daily counter to 0 before suspending, and
cancellation then returns with that roll already committed, so the counters
do not keep their pre-call values (here `(3, 7)` becomes `(0, 7)`). -/
theorem C4_counterexample :
    (Wait c4State "k" true ⟨86400000000005, 1, 2025⟩ ⟨86400000000009, 1, 2025⟩).1 =
      WaitResult.cancelled ∧
    GetQuotaStatus
        (Wait c4State "k" true ⟨86400000000005, 1, 2025⟩ ⟨86400000000009, 1, 2025⟩).2 "k" ≠
      GetQuotaStatus c4State "k" := by
  decide

/-- Claim C4 (amended: the counters are guaranteed unchanged only when the
call crosses no window boundary; the window rolls of step 2 may commit even
on a cancelled call): a cancelled `Wait` happened with the signal raised
during a positive pending delay, never touches the pacing marker, and, when
no boundary was crossed, leaves both of the credential's counters at their
pre-call values. -/
theorem C4_cancel_preserves (rl : RateLimiter) (key : String) (d : Bool)
    (t0 t1 : Time)
    (hcan : (Wait rl key d t0 t1).1 = WaitResult.cancelled) :
    d = true ∧ 0 < pacingDelay rl t0 ∧
    (Wait rl key d t0 t1).2.lastRequest = rl.lastRequest ∧
    (noBoundaryCrossed rl key t0 = true →
      GetQuotaStatus (Wait rl key d t0 t1).2 key = GetQuotaStatus rl key) := by
  obtain ⟨hd, hp, hlr, hstate⟩ := wait_cancelled_inv rl key d t0 t1 hcan
  refine ⟨hd, hp, hlr, fun hnb => ?_⟩
  rw [hstate]
  exact getQuotaStatus_insert_rolled rl key t0 hnb

/-- Witness for C4 (amended): a boundary-free cancelled call leaves status
and pacing marker untouched. -/
theorem C4_cancel_preserves_witness :
    true = true ∧ 0 < pacingDelay c4bState ⟨250, 1, 2025⟩ ∧
    (Wait c4bState "k" true ⟨250, 1, 2025⟩ ⟨260, 1, 2025⟩).2.lastRequest =
      c4bState.lastRequest ∧
    (noBoundaryCrossed c4bState "k" ⟨250, 1, 2025⟩ = true →
      GetQuotaStatus (Wait c4bState "k" true ⟨250, 1, 2025⟩ ⟨260, 1, 2025⟩).2 "k" =
        GetQuotaStatus c4bState "k") :=
  C4_cancel_preserves c4bState "k" true ⟨250, 1, 2025⟩ ⟨260, 1, 2025⟩ (by decide)

/-- Claim C9: `Reset` clears every credential's quota status and the pacing
marker, and the next call computes a zero pacing delay, exactly as on a
fresh Governor. -/
theorem C9_reset_clears (rl : RateLimiter) :
    (∀ key : String, GetQuotaStatus (Reset rl) key = (0, 0)) ∧
    (Reset rl).lastRequest = none ∧
    (∀ t : Time, pacingDelay (Reset rl) t = 0) :=
  ⟨fun _ => rfl, rfl, fun _ => rfl⟩

/-- Counterexample to C10 as stated: with the pacing marker unset but the
key's daily quota exhausted, `Wait` does not return success. -/
theorem C10_counterexample :
    c10State.lastRequest = none ∧
    (Wait c10State "k" true ⟨50, 1, 2025⟩ ⟨60, 1, 2025⟩).1 ≠ WaitResult.ok := by
  decide

/-- Claim C10 (amended: provided the quota check passes — an exhausted quota
is rejected before any pacing logic runs): cancellation is observed only
while a positive pacing delay is pending; with a zero delay and a passing
quota check, `Wait` admits, commits the pacing marker to `t1` and both
counter increments, and returns success even when the signal is already
raised. -/
theorem C10_no_delay_admits :
    (∀ (rl : RateLimiter) (key : String) (d : Bool) (t0 t1 : Time),
        (Wait rl key d t0 t1).1 = WaitResult.cancelled →
        d = true ∧ 0 < pacingDelay rl t0) ∧
    (∀ (rl : RateLimiter) (key : String) (d : Bool) (t0 t1 : Time),
        (checkQuota rl key t0).1 = none →
        pacingDelay rl t0 = 0 →
        (Wait rl key d t0 t1).1 = WaitResult.ok ∧
        (Wait rl key d t0 t1).2.lastRequest = some t1 ∧
        GetQuotaStatus (Wait rl key d t0 t1).2 key =
          ((GetQuotaStatus (checkQuota rl key t0).2 key).1 + 1,
           (GetQuotaStatus (checkQuota rl key t0).2 key).2 + 1)) := by
  constructor
  · intro rl key d t0 t1 hcan
    obtain ⟨hd, hp, _, _⟩ := wait_cancelled_inv rl key d t0 t1 hcan
    exact ⟨hd, hp⟩
  · intro rl key d t0 t1 hq hdelay
    rw [checkQuota_pair] at hq
    have hd : ¬ DailyLimit ≤ (rolledQuota rl key t0).DailyCount := by
      intro h; simp [h] at hq
    have hm : ¬ MonthlyLimit ≤ (rolledQuota rl key t0).MonthlyCount := by
      intro h; simp [hd, h] at hq
    have hp : ¬ (0 < pacingDelay rl t0 ∧ d = true) := by
      rw [hdelay]; simp
    rw [Wait_eq, checkQuota_snd]
    refine ⟨by simp [hd, hm, hp], by simp [hd, hm, hp], ?_⟩
    simp [hd, hm, hp, GetQuotaStatus, lookupQuota_insert_self]

/-- Witness for C10 (amended): pacing marker unset, quota below both
ceilings, signal already raised — the call is still admitted and both
counters advance from 4 and 9 to 5 and 10. -/
theorem C10_no_delay_admits_witness :
    (Wait c10bState "k" true ⟨50, 1, 2025⟩ ⟨60, 1, 2025⟩).1 = WaitResult.ok ∧
    (Wait c10bState "k" true ⟨50, 1, 2025⟩ ⟨60, 1, 2025⟩).2.lastRequest =
      some ⟨60, 1, 2025⟩ ∧
    GetQuotaStatus (Wait c10bState "k" true ⟨50, 1, 2025⟩ ⟨60, 1, 2025⟩).2 "k" =
      ((GetQuotaStatus (checkQuota c10bState "k" ⟨50, 1, 2025⟩).2 "k").1 + 1,
       (GetQuotaStatus (checkQuota c10bState "k" ⟨50, 1, 2025⟩).2 "k").2 + 1) :=
  C10_no_delay_admits.2 c10bState "k" true ⟨50, 1, 2025⟩ ⟨60, 1, 2025⟩
    (by decide) (by decide)

/-! ## Orchestrator lemmas -/

/-- A loop run that is never cancelled ends in the epilogue with the
accumulated failures and ordered results. -/
theorem runLoop_no_cancel {α : Type} (total : Nat) (ctxDone : Nat → Bool)
    (query : Nat → String → Except String (Option α)) :
    ∀ (l : List String) (i : Nat) (acc : List α) (fc : Nat),
      (∀ j, j < l.length → ctxDone (i + j) = false) →
      runLoop total ctxDone query l i acc fc =
        (if total / 2 < fc + countFailures query l i
         then RunResult.thresholdFailed (fc + countFailures query l i) total
         else RunResult.completed (acc ++ collectResults query l i)
                (fc + countFailures query l i)) := by
  intro l
  induction l with
  | nil =>
      intro i acc fc _
      simp [runLoop, countFailures, collectResults]
  | cons dm rest ih =>
      intro i acc fc h
      have h0 : ctxDone i = false := by simpa using h 0 (by simp)
      have hrest : ∀ j, j < rest.length → ctxDone (i + 1 + j) = false := by
        intro j hj
        have hh := h (j + 1) (by simpa using Nat.succ_lt_succ hj)
        rw [show i + 1 + j = i + (j + 1) by omega]
        exact hh
      simp only [runLoop, h0, Bool.false_eq_true, if_false]
      cases hq : query i dm with
      | error e =>
          show runLoop total ctxDone query rest (i + 1) acc (fc + 1) = _
          rw [ih (i + 1) acc (fc + 1) hrest]
          rw [show countFailures query (dm :: rest) i
                = 1 + countFailures query rest (i + 1) by simp [countFailures, hq]]
          rw [show collectResults query (dm :: rest) i
                = collectResults query rest (i + 1) by simp [collectResults, hq]]
          rw [show fc + 1 + countFailures query rest (i + 1)
                = fc + (1 + countFailures query rest (i + 1)) by omega]
      | ok o =>
          cases o with
          | none =>
              show runLoop total ctxDone query rest (i + 1) acc fc = _
              rw [ih (i + 1) acc fc hrest]
              rw [show countFailures query (dm :: rest) i
                    = countFailures query rest (i + 1) by simp [countFailures, hq]]
              rw [show collectResults query (dm :: rest) i
                    = collectResults query rest (i + 1) by simp [collectResults, hq]]
          | some r =>
              show runLoop total ctxDone query rest (i + 1) (acc ++ [r]) fc = _
              rw [ih (i + 1) (acc ++ [r]) fc hrest]
              rw [show countFailures query (dm :: rest) i
                    = countFailures query rest (i + 1) by simp [countFailures, hq]]
              rw [show collectResults query (dm :: rest) i
                    = r :: collectResults query rest (i + 1) by simp [collectResults, hq]]
              rw [show acc ++ [r] ++ collectResults query rest (i + 1)
                    = acc ++ (r :: collectResults query rest (i + 1)) by simp]

/-- `Scanner.Run` without cancellation: threshold verdict on the failure
count. -/
theorem ScannerRun_no_cancel {α : Type} (domains : List String)
    (ctxDone : Nat → Bool) (query : Nat → String → Except String (Option α))
    (h : ∀ i, i < domains.length → ctxDone i = false) :
    ScannerRun domains ctxDone query =
      (if domains.length / 2 < countFailures query domains 0
       then RunResult.thresholdFailed (countFailures query domains 0) domains.length
       else RunResult.completed (collectResults query domains 0)
              (countFailures query domains 0)) := by
  unfold ScannerRun
  rw [runLoop_no_cancel domains.length ctxDone query domains 0 [] 0 (by simpa using h)]
  simp

/-- A loop run whose cancellation signal first fires at offset `k` returns
the bare cancellation outcome, for every query oracle. -/
theorem runLoop_cancelled {α : Type} (total : Nat) (ctxDone : Nat → Bool)
    (query : Nat → String → Except String (Option α)) :
    ∀ (l : List String) (i k : Nat) (acc : List α) (fc : Nat),
      k < l.length →
      (∀ j, j < k → ctxDone (i + j) = false) →
      ctxDone (i + k) = true →
      runLoop total ctxDone query l i acc fc = RunResult.cancelled := by
  intro l
  induction l with
  | nil =>
      intro i k acc fc hk _ _
      simp at hk
  | cons dm rest ih =>
      intro i k acc fc hk hbefore hat
      cases k with
      | zero =>
          have h0 : ctxDone i = true := by simpa using hat
          simp [runLoop, h0]
      | succ k =>
          have h0 : ctxDone i = false := by simpa using hbefore 0 (Nat.succ_pos k)
          have hbefore1 : ∀ j, j < k → ctxDone (i + 1 + j) = false := by
            intro j hj
            have hh := hbefore (j + 1) (Nat.succ_lt_succ hj)
            rw [show i + 1 + j = i + (j + 1) by omega]
            exact hh
          have hat1 : ctxDone (i + 1 + k) = true := by
            rw [show i + 1 + k = i + (k + 1) by omega]
            exact hat
          have hk1 : k < rest.length := by simpa using Nat.lt_of_succ_lt_succ hk
          simp only [runLoop, h0, Bool.false_eq_true, if_false]
          cases hq : query i dm with
          | error e => exact ih (i + 1) k acc (fc + 1) hk1 hbefore1 hat1
          | ok o =>
              cases o with
              | none => exact ih (i + 1) k acc fc hk1 hbefore1 hat1
              | some r => exact ih (i + 1) k (acc ++ [r]) fc hk1 hbefore1 hat1

/-- The positions that reach the query call are exactly those before the
first firing of the cancellation signal. -/
theorem queriedIndices_eq (ctxDone : Nat → Bool) :
    ∀ (l : List String) (i k : Nat),
      k < l.length →
      (∀ j, j < k → ctxDone (i + j) = false) →
      ctxDone (i + k) = true →
      queriedIndices ctxDone l i = List.range' i k := by
  intro l
  induction l with
  | nil =>
      intro i k hk _ _
      simp at hk
  | cons dm rest ih =>
      intro i k hk hbefore hat
      cases k with
      | zero =>
          have h0 : ctxDone i = true := by simpa using hat
          simp [queriedIndices, h0, List.range']
      | succ k =>
          have h0 : ctxDone i = false := by simpa using hbefore 0 (Nat.succ_pos k)
          have hbefore1 : ∀ j, j < k → ctxDone (i + 1 + j) = false := by
            intro j hj
            have hh := hbefore (j + 1) (Nat.succ_lt_succ hj)
            rw [show i + 1 + j = i + (j + 1) by omega]
            exact hh
          have hat1 : ctxDone (i + 1 + k) = true := by
            rw [show i + 1 + k = i + (k + 1) by omega]
            exact hat
          have hk1 : k < rest.length := by simpa using Nat.lt_of_succ_lt_succ hk
          simp only [queriedIndices, h0, Bool.false_eq_true, if_false]
          rw [ih (i + 1) k hk1 hbefore1 hat1]
          simp [List.range'_succ]

/-- Claim C5: a batch of `n` items that runs to completion with `f` per-item
failures surfaces the aggregate threshold error exactly when `f > n / 2`
(integer division, strict), and otherwise completes successfully with the
ordered results even when `f > 0`. -/
theorem C5_failure_threshold {α : Type} (domains : List String)
    (ctxDone : Nat → Bool) (query : Nat → String → Except String (Option α))
    (h : ∀ i, i < domains.length → ctxDone i = false) :
    ((∃ f t, ScannerRun domains ctxDone query = RunResult.thresholdFailed f t) ↔
        domains.length / 2 < countFailures query domains 0) ∧
    (domains.length / 2 < countFailures query domains 0 →
        ScannerRun domains ctxDone query =
          RunResult.thresholdFailed (countFailures query domains 0) domains.length) ∧
    (countFailures query domains 0 ≤ domains.length / 2 →
        ScannerRun domains ctxDone query =
          RunResult.completed (collectResults query domains 0)
            (countFailures query domains 0)) := by
  rw [ScannerRun_no_cancel domains ctxDone query h]
  by_cases hf : domains.length / 2 < countFailures query domains 0
  · refine ⟨by simp [hf], fun _ => by simp [hf], fun hle => absurd hf (by omega)⟩
  · refine ⟨by simp [hf], fun hlt => absurd hlt hf, fun _ => by simp [hf]⟩

/-- Witness for C5: ten items with six failures trip the threshold (and
with five failures the same batch completes successfully). -/
theorem C5_failure_threshold_witness :
    ScannerRun c5Domains c5Done c5Query = RunResult.thresholdFailed 6 10 ∧
    ScannerRun c5Domains c5Done c5bQuery =
      RunResult.completed [5, 6, 7, 8, 9] 5 :=
  ⟨(C5_failure_threshold c5Domains c5Done c5Query (fun _ _ => rfl)).2.1 (by decide),
   (C5_failure_threshold c5Domains c5Done c5bQuery (fun _ _ => rfl)).2.2 (by decide)⟩

/-- Claim C6: when the cancellation signal is already raised before item
`i + 1` starts (index `i`), the run returns the bare cancellation outcome —
carrying none of the results accumulated for earlier items — whatever the
query oracle does, and the query collaborator is invoked exactly at the
positions before `i`. -/
theorem C6_cancellation {α : Type} (domains : List String) (ctxDone : Nat → Bool)
    (i : Nat) (h1 : i < domains.length)
    (h2 : ∀ j, j < i → ctxDone j = false)
    (h3 : ctxDone i = true) :
    (∀ query : Nat → String → Except String (Option α),
        ScannerRun domains ctxDone query = RunResult.cancelled) ∧
    queriedIndices ctxDone domains 0 = List.range i := by
  constructor
  · intro query
    unfold ScannerRun
    exact runLoop_cancelled domains.length ctxDone query domains 0 i [] 0 h1
      (by simpa using h2) (by simpa using h3)
  · rw [queriedIndices_eq ctxDone domains 0 i h1 (by simpa using h2) (by simpa using h3)]
    rw [List.range_eq_range']

/-- Witness for C6: with the signal raised from index 2 on, a five-item
batch is cancelled and only items at indices 0 and 1 reach the query
collaborator. -/
theorem C6_cancellation_witness :
    ScannerRun c6Domains c6Done c6Query = RunResult.cancelled ∧
    queriedIndices c6Done c6Domains 0 = List.range 2 :=
  ⟨(C6_cancellation c6Domains c6Done 2 (by decide) (by decide) (by decide)).1 c6Query,
   (C6_cancellation (α := Nat) c6Domains c6Done 2 (by decide) (by decide) (by decide)).2⟩

/-! ## Rotator lemmas -/

/-- In every reachable rotator state, the stop channel is still open while
`started` holds, so `Stop` can never close a closed channel. -/
theorem reachable_stop_open {kr : KeyRotator} (h : Reachable kr) :
    kr.started = true → kr.stopClosed = false := by
  induction h with
  | init keys ri t =>
      intro hs
      simp [NewKeyRotator] at hs
  | start hr h1 h2 ih =>
      intro _
      simpa [autoRotateStart] using h2
  | rotate hr heq ih =>
      unfold RotateKey at heq
      split at heq
      · simp [CurrentKeyFrom] at heq
      · simp only [Option.some.injEq, Prod.mk.injEq] at heq
        rw [← heq.2]
        intro hs
        exact ih hs
  | stop hr heq ih =>
      unfold Stop at heq
      split at heq
      · split at heq
        · cases heq
        · simp only [Option.some.injEq] at heq
          rw [← heq]
          intro hs
          simp at hs
      · simp only [Option.some.injEq] at heq
        rw [← heq]
        exact ih

/-- Claim C7 (evaluated at the failing input): on a single-credential
rotator `RotateKey` never returns — its `≤ 1` branch calls `CurrentKey`,
whose `RLock` blocks forever under the write lock `RotateKey` already
holds — even though `CurrentKey` from an unlocked caller does return the
single credential. -/
theorem C7_single_key_rotation :
    RotateKey (NewKeyRotator ["key1"] 90000000000 ⟨0, 1, 2025⟩) ⟨1000, 1, 2025⟩ =
      none ∧
    CurrentKey (NewKeyRotator ["key1"] 90000000000 ⟨0, 1, 2025⟩) = some "key1" := by
  decide

/-- Claim C8: in every reachable rotator state — including one whose
background task has started — `Stop` completes without the closed-channel
panic, and a second (and hence any later) `Stop` returns the very same
state: shutdown is idempotent. -/
theorem C8_stop_idempotent (kr : KeyRotator) (h : Reachable kr) :
    Stop kr ≠ none ∧ (Stop kr).bind Stop = Stop kr := by
  have hinv := reachable_stop_open h
  by_cases hs : kr.started = true
  · have hc : kr.stopClosed = false := hinv hs
    simp [Stop, hs, hc]
  · have hs' : kr.started = false := by
      cases hb : kr.started
      · rfl
      · exact absurd hb hs
    simp [Stop, hs']

/-- Witness for C8: a started two-credential rotator survives two
consecutive `Stop` calls, the second a no-op. -/
theorem C8_stop_idempotent_witness :
    Stop c8State ≠ none ∧ (Stop c8State).bind Stop = Stop c8State :=
  C8_stop_idempotent c8State
    (Reachable.start (Reachable.init ["a", "b"] 90000000000 ⟨0, 1, 2025⟩) rfl rfl)

end Tyvt
